import Mathlib

/-!
Verification of the daily color-game scoring core of `color-game-api`.

The Go source is embedded shallowly:

* `calculateColorScore` mirrors `api/handlers.go:calculateColorScore`
  (floating point `math.Sqrt`/`math.Round` is modelled over `ℝ`;
  `math.Round` rounds half away from zero, modelled by `roundHalfAway`).
* `DayState` collects the rows of `daily_scores`, `daily_attempt_modifiers`,
  `daily_leaderboard` for one `(userId, date)` key together with the three
  economy fields of the `users` row.
* `observeAdmission` / `createDailyScore` are the two repository round-trips
  of the `submitScore` handler (`GetUserAttemptCount` + modifier read, and
  `DailyScoreRepo.Create`); `submitScoreWith` is the handler after the score
  has been computed, `submitScore` the full handler.
* `setDailyAttemptModifier` mirrors the accumulating UPSERT of
  `datastore/daily_score_repository.go:SetDailyAttemptModifier`;
  `useItemExtraAttempt` the extra-attempt branch of
  `api/handlers_friends.go:useItem`.
* `getLeaderboardByDate` mirrors the ranking query of
  `datastore/daily_leaderboard_repository.go:GetLeaderboardByDate`.

Go's `int` division truncates toward zero and is modelled by `Int.tdiv`;
`int(math.Ceil(float64(b)/2.0))` is exact for the score range and is
modelled by `Int.ceil ((b : ℚ) / 2)`.
-/

namespace ColorGame

/-- Go's `math.Round`: round to nearest, halves away from zero. -/
noncomputable def roundHalfAway (x : ℝ) : ℤ :=
  if x < 0 then -⌊-x + 1/2⌋ else ⌊x + 1/2⌋

/-- `api/handlers.go:calculateColorScore`: Euclidean RGB distance normalised
against `441.67`, rounded, then clamped below at `0` and above at `100`. -/
noncomputable def calculateColorScore (tR tG tB sR sG sB : ℤ) : ℤ :=
  let distance : ℝ :=
    Real.sqrt (((tR : ℝ) - sR) ^ 2 + ((tG : ℝ) - sG) ^ 2 + ((tB : ℝ) - sB) ^ 2)
  let maxDistance : ℝ := 441.67
  let score : ℤ := roundHalfAway ((1 - distance / maxDistance) * 100)
  let score : ℤ := if score < 0 then 0 else score
  let score : ℤ := if score > 100 then 100 else score
  score

/-! ## Data model

One `(userId, date)` key of the durable store, restricted to the fields the
scoring core reads and writes. -/

/-- A `daily_scores` row (`models.DailyScore`), restricted to the fields the
handler logic depends on. -/
structure DailyScore where
  attemptNumber : ℕ
  score : ℤ
  deriving DecidableEq, Repr

/-- A `daily_leaderboard` row (`models.DailyLeaderboard`) for one
`(userId, date)`. -/
structure DailyLeaderboard where
  bestScore : ℤ
  attemptsUsed : ℕ
  deriving DecidableEq, Repr

/-- The three economy fields of the `users` row (`models.User`). -/
structure User where
  points : ℤ
  level : ℤ
  credits : ℤ
  deriving DecidableEq, Repr

/-- The durable state for one `(userId, date)` key: the `daily_scores` rows in
insertion order, the optional `daily_attempt_modifiers` row, the optional
`daily_leaderboard` row, and the user's economy fields. -/
structure DayState where
  scores : List DailyScore
  modifier : Option ℤ
  board : Option DailyLeaderboard
  user : User
  deriving DecidableEq, Repr

/-- A fresh day: no attempts, no modifier row, no leaderboard row. -/
def freshDay (u : User) : DayState :=
  { scores := [], modifier := none, board := none, user := u }

/-! ## Repository operations and the submit handler -/

/-- The cap computed by `submitScore` (`api/handlers.go`):
`maxAttempts := 5 + extraAttempts; if maxAttempts > 10 { maxAttempts = 10 }`,
where `extraAttempts` defaults to `0` when no modifier row exists. -/
def maxAttemptsOf (st : DayState) : ℤ :=
  let extraAttempts := st.modifier.getD 0
  let m := 5 + extraAttempts
  if m > 10 then 10 else m

/-- The admission check of `submitScore`: read the attempt count
(`GetUserAttemptCount` is `COUNT(*)` over the rows) and the modifier, and
compare against the cap. Returns the observed count when admitted. -/
def observeAdmission (st : DayState) : Option ℕ :=
  let attemptCount := st.scores.length
  if (attemptCount : ℤ) ≥ maxAttemptsOf st then none else some attemptCount

/-- `DailyScoreRepo.Create`: insert the new attempt row with
`attemptNumber = attemptCount + 1` for the count observed earlier. -/
def createDailyScore (score : ℤ) (attemptCount : ℕ) (st : DayState) : DayState :=
  { st with scores := st.scores ++ [{ attemptNumber := attemptCount + 1, score := score }] }

/-- The response message chosen by `submitScore` from the attempt's score. -/
def scoreMessage (score : ℤ) : String :=
  if score = 100 then "Perfect match! You got the exact color!"
  else if score ≥ 90 then "Excellent! Very close!"
  else if score ≥ 75 then "Great job! Pretty close!"
  else if score ≥ 50 then "Not bad! Keep trying!"
  else "Keep practicing!"

/-- The inline daily-reward block of `submitScore` (the `attemptsLeft == 0`
branch): `points += bestScore`, milestone level-ups from `/ 1000` (Go `int`
division, `Int.tdiv`), `credits += int(math.Ceil(float64(bestScore)/2.0))`
(exact on this range, modelled as `⌈bestScore/2⌉` over `ℚ`). -/
def applyDailyRewards (bestScore : ℤ) (u : User) : User :=
  let pointsAward := bestScore
  let newTotalPoints := u.points + pointsAward
  let prevMilestones := Int.tdiv u.points 1000
  let newMilestones := Int.tdiv newTotalPoints 1000
  let levelUps0 := newMilestones - prevMilestones
  let levelUps := if levelUps0 < 0 then 0 else levelUps0
  { points := newTotalPoints
    level := u.level + (if levelUps > 0 then levelUps else 0)
    credits := u.credits + ⌈(bestScore : ℚ) / 2⌉ }

/-- The response payload (`models.ScoreSubmissionResponse`), restricted to the
semantic fields. -/
structure ScoreSubmissionResponse where
  score : ℤ
  attemptNumber : ℕ
  attemptsLeft : ℤ
  maxAttempts : ℤ
  bestScore : ℤ
  isNewBest : Bool
  message : String
  deriving DecidableEq, Repr

/-- Outcome of a submission: either the HTTP 400 "Maximum attempts (d)
reached for today" early return, or a 200 with the response payload. -/
inductive SubmitOutcome where
  | attemptLimitReached (maxAttempts : ℤ)
  | ok (resp : ScoreSubmissionResponse)
  deriving DecidableEq, Repr

/-- The admitted-path tail of `submitScore`, after the score has been
computed and the count observed: insert the attempt row, update the
leaderboard row exactly when the score strictly improves (or no row exists),
and, when the admitted attempt exhausts the cap, apply the daily rewards. -/
def admitAttempt (score : ℤ) (attemptCount : ℕ) (st : DayState) :
    SubmitOutcome × DayState :=
  let maxAttempts := maxAttemptsOf st
  let st1 := createDailyScore score attemptCount st
  let attemptNumber := attemptCount + 1
  let isNewBest : Bool :=
    match st.board with
    | none => true
    | some existing => score > existing.bestScore
  let bestScore : ℤ :=
    match st.board with
    | none => score
    | some existing =>
        if score > existing.bestScore then score else existing.bestScore
  let bestAttemptsUsed : ℕ :=
    match st.board with
    | none => attemptNumber
    | some existing =>
        if score > existing.bestScore then attemptNumber else existing.attemptsUsed
  let st2 :=
    if isNewBest then
      { st1 with board := some { bestScore := bestScore, attemptsUsed := bestAttemptsUsed } }
    else st1
  let attemptsLeft := maxAttempts - (attemptNumber : ℤ)
  let message := scoreMessage score
  if attemptsLeft = 0 then
    let message := message ++ " No more attempts left for today."
    let st3 := { st2 with user := applyDailyRewards bestScore st2.user }
    (.ok { score := score, attemptNumber := attemptNumber, attemptsLeft := attemptsLeft,
           maxAttempts := maxAttempts, bestScore := bestScore, isNewBest := isNewBest,
           message := message }, st3)
  else
    (.ok { score := score, attemptNumber := attemptNumber, attemptsLeft := attemptsLeft,
           maxAttempts := maxAttempts, bestScore := bestScore, isNewBest := isNewBest,
           message := message }, st2)

/-- The `submitScore` handler with the score value abstracted (the handler
computes the score only on the admitted path, via `calculateColorScore`). -/
def submitScoreWith (score : ℤ) (st : DayState) : SubmitOutcome × DayState :=
  match observeAdmission st with
  | none => (.attemptLimitReached (maxAttemptsOf st), st)
  | some attemptCount => admitAttempt score attemptCount st

/-- The full `submitScore` handler (`api/handlers.go`): admission check, then
score computation, then the admitted path. -/
noncomputable def submitScore (tR tG tB sR sG sB : ℤ) (st : DayState) :
    SubmitOutcome × DayState :=
  match observeAdmission st with
  | none => (.attemptLimitReached (maxAttemptsOf st), st)
  | some attemptCount => admitAttempt (calculateColorScore tR tG tB sR sG sB) attemptCount st

/-- Sequential execution of a batch of admitted-or-rejected submissions with
the given scores. -/
def runSubmits (scores : List ℤ) (st : DayState) : DayState :=
  scores.foldl (fun acc s => (submitScoreWith s acc).2) st

/-- `SetDailyAttemptModifier`
(`datastore/daily_score_repository.go`): UPSERT that *adds* the new grant to
any existing row (`DO UPDATE SET extra_attempts = old + EXCLUDED`), returning
the resulting total. -/
def setDailyAttemptModifier (extraAttempts : ℤ) (st : DayState) : ℤ × DayState :=
  let total :=
    match st.modifier with
    | none => extraAttempts
    | some old => old + extraAttempts
  (total, { st with modifier := some total })

/-- Repeated grants. -/
def grantAll (ks : List ℤ) (st : DayState) : DayState :=
  ks.foldl (fun acc k => (setDailyAttemptModifier k acc).2) st

/-- The extra-attempt branch of `useItem` (`api/handlers_friends.go`): apply
the grant through `SetDailyAttemptModifier`, then report
`max_attempts = 5 + modifier.ExtraAttempts` in the effect metadata —
with no upper clamp. Returns (reported max_attempts, new state). -/
def useItemExtraAttempt (extraAttempts : ℤ) (st : DayState) : ℤ × DayState :=
  let r := setDailyAttemptModifier extraAttempts st
  (5 + r.1, r.2)

/-! ## The leaderboard ranking query -/

/-- One `daily_leaderboard` row as seen by the ranking query, with its
`created_at` column (modelled as an ℕ timestamp). -/
structure BoardRow where
  userId : ℕ
  bestScore : ℤ
  attemptsUsed : ℕ
  createdAt : ℕ
  deriving DecidableEq, Repr

/-- The `ORDER BY best_score DESC, attempts_used ASC, created_at ASC` key of
`GetLeaderboardByDate`. -/
def boardOrder (a b : BoardRow) : Prop :=
  b.bestScore < a.bestScore ∨
    (a.bestScore = b.bestScore ∧
      (a.attemptsUsed < b.attemptsUsed ∨
        (a.attemptsUsed = b.attemptsUsed ∧ a.createdAt ≤ b.createdAt)))

instance : DecidableRel boardOrder := fun a b =>
  inferInstanceAs (Decidable (b.bestScore < a.bestScore ∨
    (a.bestScore = b.bestScore ∧
      (a.attemptsUsed < b.attemptsUsed ∨
        (a.attemptsUsed = b.attemptsUsed ∧ a.createdAt ≤ b.createdAt)))))

instance : IsTotal BoardRow boardOrder where
  total a b := by
    unfold boardOrder
    rcases lt_trichotomy a.bestScore b.bestScore with h | h | h
    · right; left; exact h
    · rcases lt_trichotomy a.attemptsUsed b.attemptsUsed with h2 | h2 | h2
      · left; right; exact ⟨h, Or.inl h2⟩
      · rcases le_total a.createdAt b.createdAt with h3 | h3
        · left; right; exact ⟨h, Or.inr ⟨h2, h3⟩⟩
        · right; right; exact ⟨h.symm, Or.inr ⟨h2.symm, h3⟩⟩
      · right; right; exact ⟨h.symm, Or.inl h2⟩
    · left; left; exact h

instance : IsTrans BoardRow boardOrder where
  trans a b c hab hbc := by
    unfold boardOrder at *
    rcases hab with h1 | ⟨h1, h1'⟩ <;> rcases hbc with h2 | ⟨h2, h2'⟩
    · left; exact h2.trans h1
    · left; omega
    · left; omega
    · right
      refine ⟨by omega, ?_⟩
      rcases h1' with h3 | ⟨h3, h3'⟩ <;> rcases h2' with h4 | ⟨h4, h4'⟩
      · left; omega
      · left; omega
      · left; omega
      · right; exact ⟨by omega, h3'.trans h4'⟩

/-- A ranked output row of `GetLeaderboardByDate`
(`models.LeaderboardEntry`): `ROW_NUMBER()` over the ordering. -/
structure RankedRow where
  rank : ℕ
  userId : ℕ
  bestScore : ℤ
  attemptsUsed : ℕ
  deriving DecidableEq, Repr

/-- `GetLeaderboardByDate` (`datastore/daily_leaderboard_repository.go`):
sort the day's rows by `best_score DESC, attempts_used ASC, created_at ASC`,
assign `ROW_NUMBER()` starting at 1, and apply `LIMIT`. -/
def getLeaderboardByDate (rows : List BoardRow) (limit : ℕ) : List RankedRow :=
  let sorted := List.insertionSort boardOrder rows
  (((sorted.enumFrom 1).map fun p =>
    { rank := p.1, userId := p.2.userId, bestScore := p.2.bestScore,
      attemptsUsed := p.2.attemptsUsed }) : List RankedRow).take limit

/-! ## Derived update rules, invariants, and concrete runs -/

/-- The best score after recording an attempt with score `s`: the leaderboard
update rule of the handler (create on first attempt, replace only on strict
improvement). -/
def newBestScore (s : ℤ) (st : DayState) : ℤ :=
  match st.board with
  | none => s
  | some b => if s > b.bestScore then s else b.bestScore

/-- The leaderboard row after recording an attempt with score `s` as attempt
`c + 1`: created on the first attempt, replaced only on strict improvement,
kept unchanged on ties and lower scores. -/
def newBoard (s : ℤ) (c : ℕ) (st : DayState) : Option DailyLeaderboard :=
  match st.board with
  | none => some { bestScore := s, attemptsUsed := c + 1 }
  | some b =>
      if s > b.bestScore then some { bestScore := s, attemptsUsed := c + 1 }
      else some b

/-- The attempt rows carry exactly the numbers `1..count`, in order. -/
def scoresNumbered (st : DayState) : Prop :=
  st.scores.map DailyScore.attemptNumber = List.range' 1 st.scores.length

/-- The leaderboard row agrees with the claim's invariant: `bestScore` is the
maximum over the persisted attempts, `attemptsUsed` the attempt number of the
earliest attempt reaching it. -/
def boardMatches (rows : List DailyScore) (b : DailyLeaderboard) : Prop :=
  (∀ a ∈ rows, a.score ≤ b.bestScore) ∧
  (∃ a ∈ rows, a.score = b.bestScore ∧ a.attemptNumber = b.attemptsUsed) ∧
  (∀ a ∈ rows, a.score = b.bestScore → b.attemptsUsed ≤ a.attemptNumber)

/-- The full leaderboard invariant for one `(userId, date)` key. -/
def boardInv (st : DayState) : Prop :=
  match st.board with
  | none => st.scores = []
  | some b => boardMatches st.scores b

/-! ## The unsynchronised interleaving of concurrent submissions

The handler takes no lock and opens no transaction: its `COUNT(*)` read and
its `INSERT` are separate statements. The store, however, is not
unconstrained: `daily_scores` carries `UNIQUE(user_id, date, attempt_number)`
(migration 003; migration 007 relaxes only the `CHECK (attempt_number <= 5)`
to `<= 10` and keeps the uniqueness). An `INSERT` whose attempt number is
already taken for the key therefore errors inside `DailyScoreRepo.Create`,
and the handler maps that error to HTTP 500, writing nothing further — there
is no recompute-and-retry. The schedule below is the interleaving in which
every in-flight request performs its admission read before any performs its
insert, so each observes the same attempt count. -/

/-- The `UNIQUE(user_id, date, attempt_number)` collision check of the
`daily_scores` schema: true when a row already carries the attempt number
`attemptCount + 1` that `DailyScoreRepo.Create` is about to insert. On a
sequential trace this is never true (the rows carry `1..count` and the
insert uses `count + 1`), so the sequential handler model is unaffected. -/
def attemptNumberTaken (attemptCount : ℕ) (st : DayState) : Bool :=
  st.scores.any fun a => a.attemptNumber == attemptCount + 1

/-- What one racing request reports back: its attempt was admitted with the
given number, it was rejected by the cap, or its insert hit the unique
constraint and the handler answered HTTP 500. -/
inductive RaceOutcome where
  | admitted (attemptNumber : ℕ)
  | limitReached
  | uniqueViolation
  deriving DecidableEq, Repr

/-- Concurrent submissions under the read-everything-then-insert schedule:
each request evaluates its admission read (`observeAdmission`) against the
shared initial state, then the requests run their write paths in turn, each
inserting with the attempt number computed from its own stale read. A
request whose insert collides on `UNIQUE(user_id, date, attempt_number)`
gets an error from `DailyScoreRepo.Create` and returns 500 with nothing
written (its leaderboard update and reward block are never reached); a
request whose insert commits continues through the admitted path
(`admitAttempt`) exactly as the sequential handler does. -/
def raceSubmissions (scores : List ℤ) (st : DayState) :
    List RaceOutcome × DayState :=
  (scores.map fun s => (s, observeAdmission st)).foldl
    (fun acc p =>
      match p.2 with
      | none => (acc.1 ++ [.limitReached], acc.2)
      | some c =>
          if attemptNumberTaken c acc.2 then (acc.1 ++ [.uniqueViolation], acc.2)
          else (acc.1 ++ [.admitted (c + 1)], (admitAttempt p.1 c acc.2).2))
    ([], st)

/-- A user account as created by registration: 0 points, level 1, 0 credits. -/
def u0 : User :=
  { points := 0, level := 1, credits := 0 }

/-- Five exact-match submissions on a fresh day (cap 5): the fifth exhausts
the budget and the inline reward block runs once. -/
noncomputable def doubleSettleMid : DayState :=
  (submitScore 0 0 0 0 0 0
    ((submitScore 0 0 0 0 0 0
      ((submitScore 0 0 0 0 0 0
        ((submitScore 0 0 0 0 0 0
          ((submitScore 0 0 0 0 0 0 (freshDay u0)).2)).2)).2)).2)).2

/-- After the exhaustion, a consumed item grants 2 extra attempts (cap now 7)
and two further exact-match submissions exhaust the raised cap. -/
noncomputable def doubleSettleFin : DayState :=
  (submitScore 0 0 0 0 0 0
    ((submitScore 0 0 0 0 0 0
      ((setDailyAttemptModifier 2 doubleSettleMid).2)).2)).2

/-- A day with all five base attempts used. -/
def fullDay : DayState :=
  { scores := [{ attemptNumber := 1, score := 10 }, { attemptNumber := 2, score := 20 },
               { attemptNumber := 3, score := 30 }, { attemptNumber := 4, score := 40 },
               { attemptNumber := 5, score := 50 }],
    modifier := none,
    board := some { bestScore := 50, attemptsUsed := 5 },
    user := u0 }

/-! ## Theorems -/

theorem calculateColorScore_nonneg (tR tG tB sR sG sB : ℤ) :
    0 ≤ calculateColorScore tR tG tB sR sG sB := by
  unfold calculateColorScore
  dsimp only
  split <;> split <;> omega

theorem calculateColorScore_le_100 (tR tG tB sR sG sB : ℤ) :
    calculateColorScore tR tG tB sR sG sB ≤ 100 := by
  unfold calculateColorScore
  dsimp only
  split <;> split <;> omega

theorem calculateColorScore_self (r g b : ℤ) :
    calculateColorScore r g b r g b = 100 := by
  unfold calculateColorScore roundHalfAway
  have hd : ((r : ℝ) - r) ^ 2 + ((g : ℝ) - g) ^ 2 + ((b : ℝ) - b) ^ 2 = 0 := by ring
  rw [hd, Real.sqrt_zero]
  norm_num

theorem calculateColorScore_symm (tR tG tB sR sG sB : ℤ) :
    calculateColorScore tR tG tB sR sG sB = calculateColorScore sR sG sB tR tG tB := by
  unfold calculateColorScore
  have hd : ((tR : ℝ) - sR) ^ 2 + ((tG : ℝ) - sG) ^ 2 + ((tB : ℝ) - sB) ^ 2
      = ((sR : ℝ) - tR) ^ 2 + ((sG : ℝ) - tG) ^ 2 + ((sB : ℝ) - tB) ^ 2 := by ring
  rw [hd]

theorem sqrt_three_bounds :
    (1.7320508 : ℝ) < Real.sqrt 3 ∧ Real.sqrt 3 < 1.7320509 := by
  constructor
  · rw [show (1.7320508 : ℝ) = 17320508/10000000 by norm_num,
      Real.lt_sqrt (by positivity)]
    norm_num
  · rw [show (1.7320509 : ℝ) = 17320509/10000000 by norm_num,
      Real.sqrt_lt' (by norm_num)]
    norm_num

theorem calculateColorScore_extreme :
    calculateColorScore 0 0 0 255 255 255 = 0 := by
  have key : Real.sqrt ((((0:ℤ) : ℝ) - ((255:ℤ) : ℝ)) ^ 2 + (((0:ℤ) : ℝ) - ((255:ℤ) : ℝ)) ^ 2
      + (((0:ℤ) : ℝ) - ((255:ℤ) : ℝ)) ^ 2) = 255 * Real.sqrt 3 := by
    rw [show (((0:ℤ) : ℝ) - ((255:ℤ) : ℝ)) ^ 2 + (((0:ℤ) : ℝ) - ((255:ℤ) : ℝ)) ^ 2
        + (((0:ℤ) : ℝ) - ((255:ℤ) : ℝ)) ^ 2 = (255 : ℝ) ^ 2 * 3 by push_cast; ring]
    rw [Real.sqrt_mul (by positivity), Real.sqrt_sq (by norm_num : (0:ℝ) ≤ 255)]
  unfold calculateColorScore roundHalfAway
  dsimp only
  rw [key]
  obtain ⟨hs1, hs2⟩ := sqrt_three_bounds
  have hq1 : (1 : ℝ) < 255 * Real.sqrt 3 / 441.67 := by
    rw [lt_div_iff₀ (by norm_num : (0:ℝ) < 441.67)]
    nlinarith
  have hq2 : 255 * Real.sqrt 3 / 441.67 < 1.005 := by
    rw [div_lt_iff₀ (by norm_num : (0:ℝ) < 441.67)]
    nlinarith
  have hx : (1 - 255 * Real.sqrt 3 / 441.67) * 100 < 0 := by nlinarith
  have hfl : ⌊-((1 - 255 * Real.sqrt 3 / 441.67) * 100) + 1/2⌋ = 0 := by
    refine Int.floor_eq_zero_iff.2 (Set.mem_Ico.2 ⟨?_, ?_⟩) <;> nlinarith
  rw [if_pos hx, hfl]
  norm_num

/-- A color one unit away from the target still scores 100
(`d = 1`, `round((1 - 1/441.67) * 100) = round(99.7736) = 100`). -/
theorem calculateColorScore_near_match :
    calculateColorScore 0 0 0 1 0 0 = 100 := by
  have key : Real.sqrt ((((0:ℤ) : ℝ) - ((1:ℤ) : ℝ)) ^ 2 + (((0:ℤ) : ℝ) - ((0:ℤ) : ℝ)) ^ 2
      + (((0:ℤ) : ℝ) - ((0:ℤ) : ℝ)) ^ 2) = 1 := by
    rw [show (((0:ℤ) : ℝ) - ((1:ℤ) : ℝ)) ^ 2 + (((0:ℤ) : ℝ) - ((0:ℤ) : ℝ)) ^ 2
        + (((0:ℤ) : ℝ) - ((0:ℤ) : ℝ)) ^ 2 = (1 : ℝ) by push_cast; ring]
    exact Real.sqrt_one
  unfold calculateColorScore roundHalfAway
  dsimp only
  rw [key]
  have hx : ¬ ((1 - 1 / 441.67) * 100 < (0:ℝ)) := by norm_num
  rw [if_neg hx]
  norm_num

theorem submitScore_eq_with (tR tG tB sR sG sB : ℤ) (st : DayState) :
    submitScore tR tG tB sR sG sB st
      = submitScoreWith (calculateColorScore tR tG tB sR sG sB) st := rfl

/-! ## Structural lemmas about the handler -/

theorem admitAttempt_snd (s : ℤ) (c : ℕ) (st : DayState) :
    (admitAttempt s c st).2 =
      { scores := st.scores ++ [{ attemptNumber := c + 1, score := s }],
        modifier := st.modifier,
        board := newBoard s c st,
        user :=
          if maxAttemptsOf st - ((c + 1 : ℕ) : ℤ) = 0
          then applyDailyRewards (newBestScore s st) st.user
          else st.user } := by
  unfold admitAttempt createDailyScore newBoard newBestScore
  cases st.board <;> dsimp only <;> split_ifs <;> first | rfl | simp_all

theorem submitScoreWith_reject {s : ℤ} {st : DayState}
    (h : (st.scores.length : ℤ) ≥ maxAttemptsOf st) :
    submitScoreWith s st = (.attemptLimitReached (maxAttemptsOf st), st) := by
  unfold submitScoreWith observeAdmission
  dsimp only
  rw [if_pos h]

theorem submitScoreWith_admitted {s : ℤ} {st : DayState}
    (h : ¬ (st.scores.length : ℤ) ≥ maxAttemptsOf st) :
    submitScoreWith s st = admitAttempt s st.scores.length st := by
  unfold submitScoreWith observeAdmission
  dsimp only
  rw [if_neg h]

theorem maxAttemptsOf_le_ten (st : DayState) : maxAttemptsOf st ≤ 10 := by
  unfold maxAttemptsOf
  dsimp only
  split <;> omega

theorem maxAttemptsOf_eq_min (st : DayState) :
    maxAttemptsOf st = min 10 (5 + st.modifier.getD 0) := by
  unfold maxAttemptsOf
  dsimp only
  split <;> omega

theorem number_le_length {st : DayState} (hn : scoresNumbered st) :
    ∀ a ∈ st.scores, 1 ≤ a.attemptNumber ∧ a.attemptNumber ≤ st.scores.length := by
  intro a ha
  have hm : a.attemptNumber ∈ st.scores.map DailyScore.attemptNumber :=
    List.mem_map_of_mem _ ha
  rw [hn, List.mem_range'] at hm
  obtain ⟨i, hi, hEq⟩ := hm
  omega

theorem step_scoresNumbered (s : ℤ) (st : DayState) (hn : scoresNumbered st) :
    scoresNumbered (submitScoreWith s st).2 := by
  by_cases hc : (st.scores.length : ℤ) ≥ maxAttemptsOf st
  · rw [submitScoreWith_reject hc]; exact hn
  · rw [submitScoreWith_admitted hc, admitAttempt_snd]
    unfold scoresNumbered at *
    simp only [List.map_append, List.length_append, List.map_cons, List.map_nil,
      List.length_cons, List.length_nil]
    rw [hn]
    have h1 : st.scores.length + (0 + 1) = st.scores.length + 1 := by omega
    rw [h1, List.range'_concat]
    simp [Nat.add_comm]

theorem step_boardInv (s : ℤ) (st : DayState) (hn : scoresNumbered st)
    (hb : boardInv st) : boardInv (submitScoreWith s st).2 := by
  by_cases hc : (st.scores.length : ℤ) ≥ maxAttemptsOf st
  · rw [submitScoreWith_reject hc]; exact hb
  · rw [submitScoreWith_admitted hc, admitAttempt_snd]
    unfold boardInv at hb ⊢
    unfold newBoard
    cases hbd : st.board with
    | none =>
      rw [hbd] at hb
      dsimp only
      rw [hb]
      simp [boardMatches]
    | some b =>
      rw [hbd] at hb
      dsimp only
      simp only [boardMatches] at hb
      obtain ⟨hub, ⟨a0, ha0, ha0s, ha0n⟩, hmin⟩ := hb
      have ha0len := number_le_length hn a0 ha0
      split_ifs with h
      · -- strict improvement: board replaced
        simp only [boardMatches]
        refine ⟨?_, ?_, ?_⟩
        · intro a ha
          rcases List.mem_append.1 ha with h1 | h1
          · exact le_of_lt (lt_of_le_of_lt (hub a h1) h)
          · simp only [List.mem_singleton] at h1
            subst h1
            exact le_refl _
        · refine ⟨{ attemptNumber := st.scores.length + 1, score := s },
            List.mem_append_right _ (by simp), rfl, rfl⟩
        · intro a ha has
          rcases List.mem_append.1 ha with h1 | h1
          · have := hub a h1
            omega
          · simp only [List.mem_singleton] at h1
            subst h1
            exact le_refl _
      · -- tie or lower score: board unchanged
        simp only [boardMatches]
        refine ⟨?_, ?_, ?_⟩
        · intro a ha
          rcases List.mem_append.1 ha with h1 | h1
          · exact hub a h1
          · simp only [List.mem_singleton] at h1
            subst h1
            dsimp only
            omega
        · exact ⟨a0, List.mem_append_left _ ha0, ha0s, ha0n⟩
        · intro a ha has
          rcases List.mem_append.1 ha with h1 | h1
          · exact hmin a h1 has
          · simp only [List.mem_singleton] at h1
            subst h1
            have hred : ({ attemptNumber := st.scores.length + 1, score := s } : DailyScore).attemptNumber
                = st.scores.length + 1 := rfl
            omega

theorem runSubmits_nil (st : DayState) : runSubmits [] st = st := rfl

theorem runSubmits_cons (s : ℤ) (ss : List ℤ) (st : DayState) :
    runSubmits (s :: ss) st = runSubmits ss (submitScoreWith s st).2 := rfl

theorem runSubmits_inv (ss : List ℤ) (st : DayState) (hn : scoresNumbered st)
    (hb : boardInv st) :
    scoresNumbered (runSubmits ss st) ∧ boardInv (runSubmits ss st) := by
  induction ss generalizing st with
  | nil => exact ⟨hn, hb⟩
  | cons s ss ih =>
    rw [runSubmits_cons]
    exact ih _ (step_scoresNumbered s st hn) (step_boardInv s st hn hb)

theorem setDailyAttemptModifier_total (k : ℤ) (st : DayState) :
    (setDailyAttemptModifier k st).1 = st.modifier.getD 0 + k ∧
    ((setDailyAttemptModifier k st).2).modifier = some (st.modifier.getD 0 + k) := by
  unfold setDailyAttemptModifier
  cases st.modifier <;> simp

theorem grantAll_extra (ks : List ℤ) (st : DayState) :
    (grantAll ks st).modifier.getD 0 = st.modifier.getD 0 + ks.sum := by
  induction ks generalizing st with
  | nil => simp [grantAll]
  | cons k ks ih =>
    have hstep : grantAll (k :: ks) st = grantAll ks (setDailyAttemptModifier k st).2 := rfl
    rw [hstep, ih, (setDailyAttemptModifier_total k st).2]
    simp
    ring

/-- Go's `int` truncating division agrees with Euclidean (= floor) division
on non-negative dividends. -/
theorem tdiv_thousand_eq {a : ℤ} (h : 0 ≤ a) : Int.tdiv a 1000 = a / 1000 := by
  match a, h with
  | Int.ofNat n, _ => rfl

theorem take_range'_min : ∀ (m n s : ℕ), (List.range' s n).take m = List.range' s (min m n) := by
  intro m
  induction m with
  | zero => intro n s; simp
  | succ m ih =>
    intro n s
    cases n with
    | zero => simp
    | succ n =>
      rw [List.range'_succ, List.take_succ_cons, ih, Nat.succ_min_succ, List.range'_succ]

/-! ## Claims -/

/-- C1: the code run at the failing input. The handler has no settlement
marker: the inline reward block runs whenever an admitted attempt leaves
`attemptsLeft == 0`. The first exhaustion (attempt 5 of cap 5) moves points
from 0 to 100; after a grant of 2 raises the cap to 7, the second exhaustion
(attempt 7) runs the block again and moves points to 200 — the economy
changes twice for one `(userId, date)`, and no `AlreadySettled` outcome
exists anywhere in the code. -/
theorem claim_C1 :
    doubleSettleMid.user.points = 100 ∧ doubleSettleFin.user.points = 200 := by
  constructor <;>
    · simp only [doubleSettleMid, doubleSettleFin, submitScore_eq_with,
        calculateColorScore_self]
      decide

/-- C2: the code run at the failing input. Six concurrent submissions on a
fresh day (cap 5), each performing its `COUNT(*)` read before any `INSERT`:
all six observe count `0 < 5` and compute attempt number 1. The
`UNIQUE(user_id, date, attempt_number)` constraint lets exactly one insert
commit; the other five requests fail with unique-violation errors that the
handler answers with HTTP 500. One attempt is admitted, not
`min(6,5) = 5` — the unserialized read-then-insert turns contention into
under-admission and spurious 500s instead of the required `min(N, C)`
admissions. -/
theorem claim_C2 :
    (raceSubmissions [50, 50, 50, 50, 50, 50] (freshDay u0)).1
      = [.admitted 1, .uniqueViolation, .uniqueViolation, .uniqueViolation,
         .uniqueViolation, .uniqueViolation] ∧
    (raceSubmissions [50, 50, 50, 50, 50, 50] (freshDay u0)).2.scores
      = [{ attemptNumber := 1, score := 50 }] := by
  decide

/-- C3: the admission cap after any sequence of grants on a key with no
prior modifier row equals `min(10, 5 + sum of grants)` — grants accumulate
through the adding UPSERT — and the cap never exceeds 10. -/
theorem claim_C3 (ks : List ℤ) (st : DayState) (h : st.modifier = none) :
    maxAttemptsOf (grantAll ks st) = min 10 (5 + ks.sum) ∧
    maxAttemptsOf (grantAll ks st) ≤ 10 := by
  have he := grantAll_extra ks st
  rw [h] at he
  simp only [Option.getD_none, zero_add] at he
  exact ⟨by rw [maxAttemptsOf_eq_min, he], maxAttemptsOf_le_ten _⟩

theorem claim_C3_witness :
    maxAttemptsOf (grantAll [3, 4] (freshDay u0)) = min 10 (5 + List.sum [3, 4]) ∧
    maxAttemptsOf (grantAll [3, 4] (freshDay u0)) ≤ 10 :=
  claim_C3 [3, 4] (freshDay u0) rfl

/-- C4: a submission finding the attempt count at (or beyond) the cap
returns the attempt-limit outcome and leaves the whole durable state — the
attempt rows, the leaderboard row, the modifier and the user economy —
untouched; no score is persisted. -/
theorem claim_C4 (tR tG tB sR sG sB : ℤ) (st : DayState)
    (h : (st.scores.length : ℤ) ≥ maxAttemptsOf st) :
    submitScore tR tG tB sR sG sB st = (.attemptLimitReached (maxAttemptsOf st), st) := by
  rw [submitScore_eq_with]
  exact submitScoreWith_reject h

theorem claim_C4_witness :
    submitScore 0 0 0 7 7 7 fullDay = (.attemptLimitReached (maxAttemptsOf fullDay), fullDay) :=
  claim_C4 0 0 0 7 7 7 fullDay (by decide)

/-- C5: after any sequence of submissions on a day that starts with no
attempts and no leaderboard row, the leaderboard row (when present) carries
the maximum score over the persisted attempts and the attempt number of the
earliest attempt reaching it; and each admitted attempt transforms the row by
the create / strictly-improve / keep-on-tie-or-worse rule (`newBoard`). -/
theorem claim_C5 :
    (∀ (ss : List ℤ) (st : DayState), st.scores = [] → st.board = none →
        boardInv (runSubmits ss st)) ∧
    (∀ (s : ℤ) (st : DayState) (c : ℕ), observeAdmission st = some c →
        ((submitScoreWith s st).2).board = newBoard s c st) := by
  constructor
  · intro ss st h1 h2
    have hn : scoresNumbered st := by
      unfold scoresNumbered
      rw [h1]
      rfl
    have hb : boardInv st := by
      unfold boardInv
      rw [h2]
      exact h1
    exact (runSubmits_inv ss st hn hb).2
  · intro s st c hobs
    unfold observeAdmission at hobs
    dsimp only at hobs
    by_cases hc : (st.scores.length : ℤ) ≥ maxAttemptsOf st
    · rw [if_pos hc] at hobs
      cases hobs
    · rw [if_neg hc] at hobs
      cases hobs
      rw [submitScoreWith_admitted hc, admitAttempt_snd]

theorem claim_C5_witness :
    boardInv (runSubmits [40, 95, 95, 10, 60] (freshDay u0)) ∧
    ((submitScoreWith 40 (freshDay u0)).2).board = newBoard 40 0 (freshDay u0) :=
  ⟨claim_C5.1 [40, 95, 95, 10, 60] (freshDay u0) rfl rfl,
   claim_C5.2 40 (freshDay u0) 0 (by decide)⟩

/-- C6: the leaderboard query returns a rank-annotated prefix of the day's
rows sorted by `bestScore` descending, then `attemptsUsed` ascending, then
creation time ascending; the ranks are the contiguous integers starting at 1
(the query is a pure function of the stored rows, so an unchanged state
yields the identical page); and the `{A:90/3, B:90/2, C:95/5}` day orders as
C, B, A. -/
theorem claim_C6 :
    (∀ (rows : List BoardRow) (limit : ℕ), ∃ sorted : List BoardRow,
        sorted.Perm rows ∧ List.Sorted boardOrder sorted ∧
        getLeaderboardByDate rows limit
          = (((sorted.enumFrom 1).map fun p =>
              ({ rank := p.1, userId := p.2.userId, bestScore := p.2.bestScore,
                 attemptsUsed := p.2.attemptsUsed } : RankedRow)).take limit) ∧
        (getLeaderboardByDate rows limit).map RankedRow.rank
          = List.range' 1 (min limit rows.length)) ∧
    getLeaderboardByDate
        [{ userId := 1, bestScore := 90, attemptsUsed := 3, createdAt := 10 },
         { userId := 2, bestScore := 90, attemptsUsed := 2, createdAt := 20 },
         { userId := 3, bestScore := 95, attemptsUsed := 5, createdAt := 30 }] 100
      = [{ rank := 1, userId := 3, bestScore := 95, attemptsUsed := 5 },
         { rank := 2, userId := 2, bestScore := 90, attemptsUsed := 2 },
         { rank := 3, userId := 1, bestScore := 90, attemptsUsed := 3 }] := by
  constructor
  · intro rows limit
    refine ⟨List.insertionSort boardOrder rows, List.perm_insertionSort _ _,
      List.sorted_insertionSort _ _, rfl, ?_⟩
    unfold getLeaderboardByDate
    dsimp only
    rw [List.map_take, List.map_map]
    have hf : (RankedRow.rank ∘ fun (p : ℕ × BoardRow) =>
        ({ rank := p.1, userId := p.2.userId, bestScore := p.2.bestScore,
           attemptsUsed := p.2.attemptsUsed } : RankedRow)) = Prod.fst := rfl
    rw [hf, List.enumFrom_map_fst, (List.perm_insertionSort boardOrder rows).length_eq,
      take_range'_min]
  · decide

/-- C7: the reward numbers. Points awarded equal the day's best score;
credits awarded equal `⌈bestScore/2⌉`; levels gained equal the difference of
the `/1000` milestones (floor division on these non-negative totals) and are
never negative; and the `points = 950`, `bestScore = 95` day ends at 1045
points, level 2 (one level-up), 48 credits. -/
theorem claim_C7 :
    (∀ (best : ℤ) (u : User), 0 ≤ u.points → 0 ≤ best →
      (applyDailyRewards best u).points = u.points + best ∧
      (applyDailyRewards best u).credits = u.credits + ⌈(best : ℚ) / 2⌉ ∧
      (applyDailyRewards best u).level
          = u.level + ((u.points + best) / 1000 - u.points / 1000) ∧
      0 ≤ (u.points + best) / 1000 - u.points / 1000) ∧
    applyDailyRewards 95 { points := 950, level := 1, credits := 0 }
      = { points := 1045, level := 2, credits := 48 } := by
  constructor
  · intro best u hp hb
    have h1 : Int.tdiv u.points 1000 = u.points / 1000 := tdiv_thousand_eq hp
    have h2 : Int.tdiv (u.points + best) 1000 = (u.points + best) / 1000 :=
      tdiv_thousand_eq (by omega)
    have hmono : u.points / 1000 ≤ (u.points + best) / 1000 :=
      Int.ediv_le_ediv (by norm_num) (by omega)
    unfold applyDailyRewards
    dsimp only
    rw [h1, h2]
    refine ⟨rfl, rfl, ?_, by omega⟩
    split_ifs <;> omega
  · have hc : ⌈((95 : ℤ) : ℚ) / 2⌉ = 48 := by
      rw [Int.ceil_eq_iff]
      norm_num
    have hP : (applyDailyRewards 95 { points := 950, level := 1, credits := 0 }).points
        = 1045 := by decide
    have hL : (applyDailyRewards 95 { points := 950, level := 1, credits := 0 }).level
        = 2 := by decide
    have hC : (applyDailyRewards 95 { points := 950, level := 1, credits := 0 }).credits
        = 48 := by
      show (0 : ℤ) + ⌈((95 : ℤ) : ℚ) / 2⌉ = 48
      rw [hc]
      norm_num
    cases hrec : applyDailyRewards 95 { points := 950, level := 1, credits := 0 }
    rw [hrec] at hP hL hC
    simp only at hP hL hC
    simp only [User.mk.injEq]
    exact ⟨hP, hL, hC⟩

theorem claim_C7_witness :
    (applyDailyRewards 95 { points := 950, level := 1, credits := 0 }).points = 950 + 95 ∧
    0 ≤ ((950 : ℤ) + 95) / 1000 - (950 : ℤ) / 1000 :=
  ⟨(claim_C7.1 95 { points := 950, level := 1, credits := 0 } (by norm_num) (by norm_num)).1,
   (claim_C7.1 95 { points := 950, level := 1, credits := 0 } (by norm_num) (by norm_num)).2.2.2⟩

/-- C8: the score function is a pure total function on integer RGB triples;
it always lands in `[0,100]`, scores a color against itself as 100, is
symmetric in target and submission, and scores black against white as 0. -/
theorem claim_C8 :
    (∀ tR tG tB sR sG sB : ℤ,
        0 ≤ calculateColorScore tR tG tB sR sG sB ∧
        calculateColorScore tR tG tB sR sG sB ≤ 100) ∧
    (∀ r g b : ℤ, calculateColorScore r g b r g b = 100) ∧
    (∀ tR tG tB sR sG sB : ℤ,
        calculateColorScore tR tG tB sR sG sB = calculateColorScore sR sG sB tR tG tB) ∧
    calculateColorScore 0 0 0 255 255 255 = 0 :=
  ⟨fun tR tG tB sR sG sB =>
      ⟨calculateColorScore_nonneg tR tG tB sR sG sB,
       calculateColorScore_le_100 tR tG tB sR sG sB⟩,
   calculateColorScore_self, calculateColorScore_symm, calculateColorScore_extreme⟩

/-- C9: the use-item response reports `max_attempts = 5 + total extra
attempts` with no clamp, while the submit handler enforces
`min(10, 5 + total)`; once the accumulated grants exceed 5 the reported
value exceeds 10 and disagrees with the enforced cap. -/
theorem claim_C9 (k : ℤ) (st : DayState) :
    (useItemExtraAttempt k st).1 = 5 + (st.modifier.getD 0 + k) ∧
    maxAttemptsOf (useItemExtraAttempt k st).2 = min 10 (5 + (st.modifier.getD 0 + k)) ∧
    (st.modifier.getD 0 + k > 5 →
      (useItemExtraAttempt k st).1 > 10 ∧
      (useItemExtraAttempt k st).1 ≠ maxAttemptsOf (useItemExtraAttempt k st).2) := by
  have h1 := setDailyAttemptModifier_total k st
  have hfst : (useItemExtraAttempt k st).1 = 5 + (setDailyAttemptModifier k st).1 := rfl
  have hsnd : (useItemExtraAttempt k st).2 = (setDailyAttemptModifier k st).2 := rfl
  refine ⟨?_, ?_, ?_⟩
  · rw [hfst, h1.1]
  · rw [hsnd, maxAttemptsOf_eq_min, h1.2, Option.getD_some]
  · intro hgt
    constructor
    · rw [hfst, h1.1]
      omega
    · rw [hfst, hsnd, h1.1, maxAttemptsOf_eq_min, h1.2, Option.getD_some]
      omega

theorem claim_C9_witness :
    (useItemExtraAttempt 6 (freshDay u0)).1 > 10 ∧
    (useItemExtraAttempt 6 (freshDay u0)).1
      ≠ maxAttemptsOf (useItemExtraAttempt 6 (freshDay u0)).2 :=
  (claim_C9 6 (freshDay u0)).2.2 (by decide)

/-- C10: unequal colors can score 100: a one-unit channel difference rounds
up to 100, and the submission response then carries the exact-match message
even though target and submission differ. -/
theorem claim_C10 :
    ((0 : ℤ), (0 : ℤ), (0 : ℤ)) ≠ ((1 : ℤ), (0 : ℤ), (0 : ℤ)) ∧
    calculateColorScore 0 0 0 1 0 0 = 100 ∧
    scoreMessage 100 = "Perfect match! You got the exact color!" ∧
    (submitScore 0 0 0 1 0 0 (freshDay u0)).1
      = .ok { score := 100, attemptNumber := 1, attemptsLeft := 4, maxAttempts := 5,
              bestScore := 100, isNewBest := true,
              message := "Perfect match! You got the exact color!" } := by
  refine ⟨by decide, calculateColorScore_near_match, rfl, ?_⟩
  rw [submitScore_eq_with, calculateColorScore_near_match]
  decide
